import Mathlib

/-!
Verification of the supervisor/analyzer orchestration of `open_deep_research`
(`src/open_deep_research/deep_researcher.py`, `utils.py`, `state.py`,
`configuration.py`) against its natural-language specification.

The Python code is shallowly embedded: langchain message objects become the
`Msg` structure, the opaque model-invocation collaborator becomes an oracle
`Nat → ModelOutcome` (one outcome per attempt, already classified by
`utils.is_token_limit_exceeded`), tool execution becomes an oracle
`ToolCall → Except String String` (`Except.error` standing for a raised
exception), and `asyncio.gather` becomes an explicit scheduler `asyncGather`
that fills result slots in an arbitrary completion order.  Python `str`
values whose character-level slicing matters (`findings[:n]`) are modelled
as `List Char`; all other text is `String`.
-/

namespace OpenDeepResearch

/-- Message roles of the four langchain message classes used by the code
(`SystemMessage` / `HumanMessage` / `AIMessage` / `ToolMessage`). -/
inductive Role
  | system
  | human
  | ai
  | tool
deriving DecidableEq, Repr

/-- One entry of an assistant message's `tool_calls` list: the requested tool
name, its argument payload (`args["analysis_topic"]` for `AnalyzeRepository`
calls; an opaque argument string otherwise) and the call id. -/
structure ToolCall where
  name : String
  args : String
  id : String
deriving DecidableEq, Repr

/-- A langchain message as used by `deep_researcher.py`: role, text content,
the `tool_calls` of an assistant message, and the `name`/`tool_call_id`
fields of a `ToolMessage`. -/
structure Msg where
  role : Role
  content : String
  tool_calls : List ToolCall := []
  name : String := ""
  tool_call_id : String := ""
deriving DecidableEq, Repr

/-- Default message used to give `List.getLastD` a value; the Python code
indexes `messages[-1]` only on non-empty histories. -/
def defaultMsg : Msg := { role := Role.ai, content := "" }

/-- `utils.filter_messages`-style filter restricted to the `include_types`
lists actually used by the repository (`"tool"` and `["tool", "ai"]`). -/
def filter_messages (types : List Role) (messages : List Msg) : List Msg :=
  messages.filter (fun m => types.contains m.role)

/-- `utils.get_notes_from_tool_calls`: the contents of all tool-result
entries of a history. -/
def get_notes_from_tool_calls (messages : List Msg) : List String :=
  (filter_messages [Role.tool] messages).map (fun m => m.content)

/-- Index of the last `AIMessage` of a history (the reverse scan of
`utils.remove_up_to_last_ai_message`). -/
def lastAiIdx : List Msg → Option Nat
  | [] => none
  | m :: rest =>
    match lastAiIdx rest with
    | some i => some (i + 1)
    | none => if m.role = Role.ai then some 0 else none

/-- `utils.remove_up_to_last_ai_message`: scan from the end for the last
assistant message and return everything strictly before it; if the history
has no assistant message it is returned unchanged. -/
def remove_up_to_last_ai_message (messages : List Msg) : List Msg :=
  match lastAiIdx messages with
  | some i => messages.take i
  | none => messages

/-- The subset of `configuration.Configuration` that the orchestration logic
reads, with the source's defaults. -/
structure Configuration where
  max_concurrent_analysis_units : Nat := 6
  max_analyzer_iterations : Nat := 15
  max_react_tool_calls : Nat := 5
deriving DecidableEq, Repr

/-- Outcome of one opaque model invocation, as seen by the retry ladders:
either it returns content, or it raises an exception that
`utils.is_token_limit_exceeded` classifies as a context/token-limit error,
or it raises any other exception. -/
inductive ModelOutcome
  | success (content : String)
  | tokenLimit (msg : String)
  | otherError (msg : String)
deriving DecidableEq, Repr

/-! ### `asyncio.gather` as an explicit scheduler

`asyncio.gather(*coros)` runs its branches concurrently and returns their
results **in input order**, whatever the completion order.  We model the
scheduler: `order` is the sequence of branch indices in completion order;
each completion writes the branch's result into its input-index slot, and
the final result reads the slots in index order. -/

/-- One completion event: branch `i` finishes and writes its result into
slot `i` (out-of-range indices are no-ops, as they cannot occur). -/
def completeOne (tasks : List α) (slots : List (Option α)) (i : Nat) :
    List (Option α) :=
  slots.set i tasks[i]?

/-- Run a whole completion schedule over initially-empty slots. -/
def runSchedule (tasks : List α) (order : List Nat) : List (Option α) :=
  order.foldl (completeOne tasks) (List.replicate tasks.length none)

/-- The list `asyncio.gather` hands back once every branch completed. -/
def asyncGather (tasks : List α) (order : List Nat) : List α :=
  (runSchedule tasks order).reduceOption

theorem foldl_completeOne_getElem? (tasks : List α) (order : List Nat)
    (slots : List (Option α)) (j : Nat) :
    (order.foldl (completeOne tasks) slots)[j]? =
      if j ∈ order ∧ j < slots.length then some tasks[j]? else slots[j]? := by
  induction order generalizing slots with
  | nil => simp
  | cons i rest ih =>
    simp only [List.foldl_cons]
    rw [ih]
    simp only [completeOne, List.length_set, List.getElem?_set, List.mem_cons]
    by_cases hjl : j < slots.length
    · by_cases hjr : j ∈ rest
      · simp [hjr, hjl]
      · by_cases hij : i = j
        · subst hij
          simp [hjr, hjl]
        · simp [hjr, hjl, hij, Ne.symm hij]
    · have hnone : slots[j]? = none := List.getElem?_eq_none (Nat.le_of_not_lt hjl)
      by_cases hij : i = j
      · subst hij
        simp [hjl, hnone]
      · simp [hjl, hij, hnone]

theorem length_foldl_completeOne (tasks : List α) (order : List Nat)
    (slots : List (Option α)) :
    (order.foldl (completeOne tasks) slots).length = slots.length := by
  induction order generalizing slots with
  | nil => rfl
  | cons i rest ih => simp [completeOne, ih]

theorem length_runSchedule (tasks : List α) (order : List Nat) :
    (runSchedule tasks order).length = tasks.length := by
  simp [runSchedule, length_foldl_completeOne]

/-- The join-all fan-in is order-independent: for every completion order that
completes each branch exactly once, `asyncio.gather` returns the branch
results in input order. -/
theorem reduceOption_map_some_self (l : List α) :
    (l.map some).reduceOption = l := by
  induction l with
  | nil => rfl
  | cons a t ih => simp [List.reduceOption_cons_of_some, ih]

/-- The join-all fan-in is order-independent: for every completion order that
completes each branch exactly once, `asyncio.gather` returns the branch
results in input order. -/
theorem asyncGather_perm (tasks : List α) (order : List Nat)
    (h : order.Perm (List.range tasks.length)) :
    asyncGather tasks order = tasks := by
  have hsched : runSchedule tasks order = tasks.map some := by
    apply List.ext_getElem?
    intro j
    have hmem : j ∈ order ↔ j < tasks.length := by
      rw [h.mem_iff, List.mem_range]
    unfold runSchedule
    rw [foldl_completeOne_getElem?]
    by_cases hj : j < tasks.length
    · simp [hmem, hj, List.getElem?_map]
    · have hle : tasks.length ≤ j := Nat.le_of_not_lt hj
      simp [hmem, hj, List.getElem?_map, List.getElem?_eq_none, hle]
  unfold asyncGather
  rw [hsched, reduceOption_map_some_self]

/-! ### Supervisor loop (`supervisor` / `supervisor_tools`) -/

/-- Output of one Analyzer Unit run (`AnalyzerOutputState`); the supervisor
reads it with `observation.get("compressed_analysis", default)`, hence the
`Option`. -/
structure AnalyzerOutput where
  compressed_analysis : Option String
  raw_analysis : List String
deriving DecidableEq, Repr

/-- The supervisor-scope state fields read and written by the loop
(`state.SupervisorState`). -/
structure SupervisorState where
  supervisor_messages : List Msg
  analysis_iterations : Nat
  repo_url : String
  design_brief : String
deriving DecidableEq, Repr

/-- `deep_researcher.supervisor` (the Plan step), with the model response to
the supervisor history passed in as `response`: appends the response and
increments `analysis_iterations`. -/
def supervisor (st : SupervisorState) (response : Msg) : SupervisorState :=
  { st with
    supervisor_messages := st.supervisor_messages ++ [response],
    analysis_iterations := st.analysis_iterations + 1 }

/-- `supervisor_messages[-1]` (the graph guarantees a non-empty history). -/
def most_recent_message (messages : List Msg) : Msg :=
  messages.getLastD defaultMsg

/-- `any(tool_call["name"] == "AnalysisComplete" for tool_call in
most_recent_message.tool_calls)`. -/
def analysis_complete_requested (m : Msg) : Bool :=
  m.tool_calls.any (fun tc => tc.name == "AnalysisComplete")

/-- The Dispatch step's exit criteria: iteration budget exhausted, no tool
calls requested, or any `AnalysisComplete` call present. -/
def supervisor_should_end (cfg : Configuration) (st : SupervisorState) : Bool :=
  decide (cfg.max_analyzer_iterations ≤ st.analysis_iterations)
    || (most_recent_message st.supervisor_messages).tool_calls.isEmpty
    || analysis_complete_requested (most_recent_message st.supervisor_messages)

/-- The `AnalyzeRepository` calls of the most recent Plan output. -/
def analyze_repository_calls_of (m : Msg) : List ToolCall :=
  m.tool_calls.filter (fun tc => tc.name == "AnalyzeRepository")

/-- The synthetic rejection text for an overflow action (the f-string in
`supervisor_tools`). -/
def overflow_text (cfg : Configuration) : String :=
  "Error: Did not run this analysis as you have already exceeded the maximum number of concurrent analysis units. Please try again with "
    ++ toString cfg.max_concurrent_analysis_units ++ " or fewer analysis units."

/-- The `ToolMessage` built for one admitted analyzer result. -/
def supervisor_tool_message (observation : AnalyzerOutput) (tc : ToolCall) : Msg :=
  { role := Role.tool,
    content := observation.compressed_analysis.getD
      "Error synthesizing analysis report: Maximum retries exceeded",
    name := tc.name,
    tool_call_id := tc.id }

/-- The `ToolMessage` built for one overflow (rejected) action. -/
def overflow_tool_message (cfg : Configuration) (tc : ToolCall) : Msg :=
  { role := Role.tool,
    content := overflow_text cfg,
    name := "AnalyzeRepository",
    tool_call_id := tc.id }

/-- `Except.error` stands for a raised exception of a fan-out branch. -/
def isErr : Except ε α → Bool
  | Except.error _ => true
  | Except.ok _ => false

/-- Where `supervisor_tools` transfers control: `goto=END` (with the state
update collecting the notes) or `goto="supervisor"` (with the tool messages
and raw-analysis update appended). -/
inductive SupTransition
  | toEnd (analysis_notes : List String) (repo_url design_brief : String)
  | toSupervisor (tool_messages : List Msg) (raw_analysis : List String)
deriving DecidableEq, Repr

def SupTransition.isEnd : SupTransition → Bool
  | SupTransition.toEnd _ _ _ => true
  | SupTransition.toSupervisor _ _ => false

/-- `deep_researcher.supervisor_tools` (the Dispatch step).  `runUnit` is the
opaque Analyzer Unit subgraph invocation on one `AnalyzeRepository` call
(`Except.error` = the branch raised); `order` is the completion order of the
concurrent fan-out.  `asyncio.gather` propagates a raised branch exception,
which the surrounding `try`/`except` turns into the same terminal command as
normal completion (fail-open). -/
def supervisor_tools (cfg : Configuration)
    (runUnit : ToolCall → Except String AnalyzerOutput) (order : List Nat)
    (st : SupervisorState) : SupTransition :=
  if supervisor_should_end cfg st then
    SupTransition.toEnd (get_notes_from_tool_calls st.supervisor_messages)
      st.repo_url st.design_brief
  else
    let all_analyze_repository_calls :=
      analyze_repository_calls_of (most_recent_message st.supervisor_messages)
    let analyze_repository_calls :=
      all_analyze_repository_calls.take cfg.max_concurrent_analysis_units
    let overflow_analyze_repository_calls :=
      all_analyze_repository_calls.drop cfg.max_concurrent_analysis_units
    let branches := analyze_repository_calls.map runUnit
    if branches.any isErr then
      SupTransition.toEnd (get_notes_from_tool_calls st.supervisor_messages)
        st.repo_url st.design_brief
    else
      let tool_results := asyncGather (branches.filterMap Except.toOption) order
      let tool_messages :=
        List.zipWith supervisor_tool_message tool_results analyze_repository_calls
          ++ overflow_analyze_repository_calls.map (overflow_tool_message cfg)
      let raw_analysis_concat := String.intercalate "\n"
        (tool_results.map (fun observation =>
          String.intercalate "\n" observation.raw_analysis))
      SupTransition.toSupervisor tool_messages [raw_analysis_concat]

/-! ### Analyzer Unit (`analyzer` / `execute_tool_safely` / `analyzer_tools`) -/

/-- The analyzer-scope state fields read by the loop
(`state.AnalyzerState`). -/
structure AnalyzerState where
  analyzer_messages : List Msg
  tool_call_iterations : Nat
deriving DecidableEq, Repr

/-- The GitHub configuration surface read by `utils.get_github_tools`. -/
structure GithubConfig where
  github_repo_url : String := ""
  github_access_token : String := ""
deriving DecidableEq, Repr

/-- Substring search over character lists (structural recursion). -/
def charListContains : List Char → List Char → Bool
  | [], pat => pat.isEmpty
  | c :: rest, pat => pat.isPrefixOf (c :: rest) || charListContains rest pat

/-- Python `pat in s` for strings: substring containment. -/
def containsSubstring (s pat : String) : Bool :=
  charListContains s.data pat.data

/-- The `owner/repo` extraction of `utils.get_github_tools`. -/
def extract_github_repository (repo_url : String) : Option String :=
  if containsSubstring repo_url "github.com/" then
    match ((repo_url.replace "https://github.com/" "").replace
        "http://github.com/" "").splitOn "/" with
    | owner :: repo :: _ => some (owner ++ "/" ++ repo)
    | _ => none
  else
    none

/-- The eight `@tool` capabilities `utils.get_github_tools` creates, by
name. -/
def githubToolNames : List String :=
  ["analyze_repository_structure", "read_file_with_context",
   "search_code_patterns", "detect_technology_stack",
   "analyze_project_configuration", "explore_directory",
   "analyze_dependency_graph", "trace_code_flow"]

/-- `utils.get_github_tools`: empty when the repository reference cannot be
parsed or the access token is missing, otherwise the eight capabilities. -/
def get_github_tools (cfg : GithubConfig) : List String :=
  match extract_github_repository cfg.github_repo_url with
  | none => []
  | some _ => if cfg.github_access_token = "" then [] else githubToolNames

/-- `utils.get_all_tools`: the synthetic `AnalysisComplete` tool is created
first and the GitHub tools are appended. -/
def get_all_tools (cfg : GithubConfig) : List String :=
  ["AnalysisComplete"] ++ get_github_tools cfg

/-- Result of the `analyzer` Think step: either the `ValueError` raised when
the tool list is empty, or the transition to `analyzer_tools` carrying the
model response and the bumped `tool_call_iterations`. -/
inductive AnalyzerThinkResult
  | raised (msg : String)
  | toAnalyzerTools (response : Msg) (tool_call_iterations : Nat)
deriving DecidableEq, Repr

/-- `deep_researcher.analyzer` (the Think step), with the model response
passed in as `response`. -/
def analyzer (gh : GithubConfig) (response : Msg) (st : AnalyzerState) :
    AnalyzerThinkResult :=
  let tools := get_all_tools gh
  if tools.length = 0 then
    AnalyzerThinkResult.raised
      "No tools found to conduct analysis: Please configure GitHub access token and repository URL."
  else
    AnalyzerThinkResult.toAnalyzerTools response (st.tool_call_iterations + 1)

/-- `deep_researcher.execute_tool_safely`: a raised capability exception
becomes the textual observation `"Error executing tool: <message>"`. -/
def execute_tool_safely (runTool : ToolCall → Except String String)
    (tc : ToolCall) : String :=
  match runTool tc with
  | Except.ok s => s
  | Except.error e => "Error executing tool: " ++ e

/-- The `ToolMessage` appended for one capability call. -/
def tool_output_message (observation : String) (tc : ToolCall) : Msg :=
  { role := Role.tool,
    content := observation,
    name := tc.name,
    tool_call_id := tc.id }

/-- Where `analyzer_tools` transfers control, carrying the tool messages it
appends to the unit's history (the early exit appends none). -/
inductive AnalyzerTransition
  | toCompress (tool_outputs : List Msg)
  | toAnalyzer (tool_outputs : List Msg)
deriving DecidableEq, Repr

def AnalyzerTransition.outputs : AnalyzerTransition → List Msg
  | AnalyzerTransition.toCompress o => o
  | AnalyzerTransition.toAnalyzer o => o

/-- `deep_researcher.analyzer_tools` (the Act step).  `runTool` is the opaque
capability collaborator; `order` is the completion order of the concurrent
fan-out over the requested calls. -/
def analyzer_tools (cfg : Configuration)
    (runTool : ToolCall → Except String String) (order : List Nat)
    (st : AnalyzerState) : AnalyzerTransition :=
  let m := most_recent_message st.analyzer_messages
  if m.tool_calls.isEmpty then
    AnalyzerTransition.toCompress []
  else
    let tool_calls := m.tool_calls
    let observations :=
      asyncGather (tool_calls.map (execute_tool_safely runTool)) order
    let tool_outputs := List.zipWith tool_output_message observations tool_calls
    if decide (cfg.max_react_tool_calls ≤ st.tool_call_iterations)
        || analysis_complete_requested m then
      AnalyzerTransition.toCompress tool_outputs
    else
      AnalyzerTransition.toAnalyzer tool_outputs

/-! ### Compression Stage (`compress_analysis`) -/

/-- The value returned by `compress_analysis` (keys `compressed_analysis`
and `raw_analysis`). -/
structure CompressResult where
  compressed_analysis : String
  raw_analysis : List String
deriving DecidableEq, Repr

/-- The compression-focused system instruction that replaces the history's
leading entry (`compress_analysis_system_prompt`; the prompt text itself is
opaque). -/
def compress_system_message : Msg :=
  { role := Role.system, content := "compress_analysis_system_prompt" }

/-- The fixed human directive appended before compressing
(`compress_analysis_simple_human_message`; the text itself is opaque). -/
def compress_human_message : Msg :=
  { role := Role.human, content := "compress_analysis_simple_human_message" }

/-- The raw trail: `"\n".join(str(m.content) for m in
filter_messages(analyzer_messages, include_types=["tool", "ai"]))`. -/
def compress_raw (messages : List Msg) : String :=
  String.intercalate "\n"
    ((filter_messages [Role.tool, Role.ai] messages).map (fun m => m.content))

/-- `analyzer_messages[0] = SystemMessage(...)` followed by
`analyzer_messages.append(HumanMessage(...))` (the history is non-empty on
every graph path reaching this node). -/
def compress_setup (analyzer_messages : List Msg) : List Msg :=
  analyzer_messages.set 0 compress_system_message ++ [compress_human_message]

/-- The `while synthesis_attempts < 3` retry loop of `compress_analysis`.
`oracle n` is the outcome of the `(n+1)`-th synthesizer-model call.  The
second component counts the model calls actually made.  Note the source
retries on every failure: a token-limit failure prunes the history first
(`continue`), any other failure merely prints and falls through to the next
loop iteration. -/
def compressLoop (oracle : Nat → ModelOutcome) (messages : List Msg)
    (synthesis_attempts : Nat) : CompressResult × Nat :=
  if synthesis_attempts < 3 then
    match oracle synthesis_attempts with
    | ModelOutcome.success c =>
        ({ compressed_analysis := c, raw_analysis := [compress_raw messages] },
         synthesis_attempts + 1)
    | ModelOutcome.tokenLimit _ =>
        compressLoop oracle (remove_up_to_last_ai_message messages)
          (synthesis_attempts + 1)
    | ModelOutcome.otherError _ =>
        compressLoop oracle messages (synthesis_attempts + 1)
  else
    ({ compressed_analysis :=
        "Error synthesizing analysis report: Maximum retries exceeded",
       raw_analysis := [compress_raw messages] },
     synthesis_attempts)
termination_by 3 - synthesis_attempts

/-- `deep_researcher.compress_analysis`. -/
def compress_analysis (oracle : Nat → ModelOutcome)
    (analyzer_messages : List Msg) : CompressResult × Nat :=
  compressLoop oracle (compress_setup analyzer_messages) 0

/-! ### Final Synthesis (`final_design_doc_generation`) -/

/-- `utils.MODEL_TOKEN_LIMITS`, in source (insertion) order. -/
def MODEL_TOKEN_LIMITS : List (String × Nat) :=
  [("openai:gpt-4.1-mini", 1047576),
   ("openai:gpt-4.1-nano", 1047576),
   ("openai:gpt-4.1", 1047576),
   ("openai:gpt-4o-mini", 128000),
   ("openai:gpt-4o", 128000),
   ("openai:o4-mini", 200000),
   ("openai:o3-mini", 200000),
   ("openai:o3", 200000),
   ("openai:o3-pro", 200000),
   ("openai:o1", 200000),
   ("openai:o1-pro", 200000),
   ("anthropic:claude-opus-4", 200000),
   ("anthropic:claude-sonnet-4", 200000),
   ("anthropic:claude-3-7-sonnet", 200000),
   ("anthropic:claude-3-5-sonnet", 200000),
   ("anthropic:claude-3-5-haiku", 200000),
   ("google:gemini-1.5-pro", 2097152),
   ("google:gemini-1.5-flash", 1048576),
   ("google:gemini-pro", 32768),
   ("cohere:command-r-plus", 128000),
   ("cohere:command-r", 128000),
   ("cohere:command-light", 4096),
   ("cohere:command", 4096),
   ("mistral:mistral-large", 32768),
   ("mistral:mistral-medium", 32768),
   ("mistral:mistral-small", 32768),
   ("mistral:mistral-7b-instruct", 32768),
   ("ollama:codellama", 16384),
   ("ollama:llama2:70b", 4096),
   ("ollama:llama2:13b", 4096),
   ("ollama:llama2", 4096),
   ("ollama:mistral", 32768)]

/-- `utils.get_model_token_limit`: first table key contained in the model
string, else `None`. -/
def get_model_token_limit (model_string : String) : Option Nat :=
  (MODEL_TOKEN_LIMITS.find? (fun kv => containsSubstring model_string kv.1)).map
    (fun kv => kv.2)

/-- One key/value pair of the state update dict a Final Synthesis return
path produces.  `analysis_notes_override` is the
`{"type": "override", "value": v}` entry handled by
`state.override_reducer`, which replaces the accumulated notes with `v`. -/
inductive FieldWrite
  | final_design_doc (v : String)
  | messages (v : List String)
  | analysis_notes_override (v : List String)
deriving DecidableEq, Repr

/-- `cleared_state = {"analysis_notes": {"type": "override", "value": []}}`. -/
def cleared_state : List FieldWrite := [FieldWrite.analysis_notes_override []]

/-- The abort text when the model's maximum context length is unknown. -/
def tokenLimitUnknownText (msg : String) : String :=
  "Error generating final design document: Token limit exceeded, however, we could not determine the model's maximum context length. Please update the model map in deep_researcher/utils.py with this information. "
    ++ msg

/-- Result of `final_design_doc_generation`: either a returned state update,
or a raised exception.  When every attempt fails, the return literal
`{"final_design_doc": ..., "messages": [final_design_doc], **cleared_state}`
reads the local `final_design_doc`, which was never assigned (it is only
bound on the success path inside the `try`), so Python raises
`UnboundLocalError` instead of returning. -/
inductive FinalResult
  | ret (update : List FieldWrite)
  | raised (excName : String)
deriving DecidableEq, Repr

/-- The `while current_retry <= max_retries` (`max_retries = 3`) loop of
`final_design_doc_generation`.  `oracle n` is the outcome of the `(n+1)`-th
writer-model call (exactly one call per loop iteration, and `current_retry`
counts exactly the completed iterations, so the call of the iteration with
counter `r` is `oracle r`).  `findings` is the Python string as its
character list, `findings[:n]` is `List.take`; `int(findings_token_limit *
0.9)` is modelled as exact integer `9 * b / 10`, which agrees with the
float computation at the values exercised here.  The second component
records the length of `findings` passed to each model call, in call order. -/
def finalLoop (oracle : Nat → ModelOutcome) (model_token_limit : Option Nat)
    (findings : List Char) (findings_token_limit : Nat) (current_retry : Nat) :
    FinalResult × List Nat :=
  if current_retry ≤ 3 then
    match oracle current_retry with
    | ModelOutcome.success c =>
        (FinalResult.ret
          ([FieldWrite.final_design_doc c, FieldWrite.messages [c]] ++ cleared_state),
         [findings.length])
    | ModelOutcome.otherError msg =>
        (FinalResult.ret
          ([FieldWrite.final_design_doc
              ("Error generating final design document: " ++ msg)] ++ cleared_state),
         [findings.length])
    | ModelOutcome.tokenLimit msg =>
        if current_retry = 0 then
          match model_token_limit with
          | none =>
              (FinalResult.ret
                ([FieldWrite.final_design_doc (tokenLimitUnknownText msg)]
                  ++ cleared_state),
               [findings.length])
          | some lim =>
              let b := lim * 4
              let r := finalLoop oracle model_token_limit (findings.take b) b
                (current_retry + 1)
              (r.1, findings.length :: r.2)
        else
          let b := findings_token_limit * 9 / 10
          let r := finalLoop oracle model_token_limit (findings.take b) b
            (current_retry + 1)
          (r.1, findings.length :: r.2)
  else
    (FinalResult.raised "UnboundLocalError", [])
termination_by 4 - current_retry

/-- `deep_researcher.final_design_doc_generation`: `findings` is
`"\n".join(analysis_notes)`; the (pure) token-limit lookup for
`configurable.final_design_doc_model` is evaluated where the source first
needs it. -/
def final_design_doc_generation (oracle : Nat → ModelOutcome)
    (final_design_doc_model : String) (analysis_notes : List String) :
    FinalResult × List Nat :=
  finalLoop oracle (get_model_token_limit final_design_doc_model)
    (String.intercalate "\n" analysis_notes).data 0 0

/-! ### Concrete instances used by witnesses and counterexamples -/

/-- Ten `AnalyzeRepository` requests, as in the spec's 10-versus-3 scenario. -/
def tenCalls : List ToolCall :=
  [{ name := "AnalyzeRepository", args := "t0", id := "c0" },
   { name := "AnalyzeRepository", args := "t1", id := "c1" },
   { name := "AnalyzeRepository", args := "t2", id := "c2" },
   { name := "AnalyzeRepository", args := "t3", id := "c3" },
   { name := "AnalyzeRepository", args := "t4", id := "c4" },
   { name := "AnalyzeRepository", args := "t5", id := "c5" },
   { name := "AnalyzeRepository", args := "t6", id := "c6" },
   { name := "AnalyzeRepository", args := "t7", id := "c7" },
   { name := "AnalyzeRepository", args := "t8", id := "c8" },
   { name := "AnalyzeRepository", args := "t9", id := "c9" }]

/-- A supervisor state whose most recent Plan output made the ten requests. -/
def tenCallSt : SupervisorState :=
  { supervisor_messages := [{ role := Role.ai, content := "", tool_calls := tenCalls }],
    analysis_iterations := 1,
    repo_url := "https://github.com/o/r",
    design_brief := "brief" }

/-- A configuration with `max_concurrent_analysis_units = 3`. -/
def threeUnitCfg : Configuration := { max_concurrent_analysis_units := 3 }

/-- A stub Analyzer Unit whose every run compresses to `"report"`. -/
def stubRes : ToolCall → AnalyzerOutput :=
  fun _ => { compressed_analysis := some "report", raw_analysis := ["raw"] }

/-- The same stub as a never-raising subgraph invocation. -/
def stubRunUnit : ToolCall → Except String AnalyzerOutput :=
  fun tc => Except.ok (stubRes tc)

/-- A supervisor state whose most recent Plan output made no tool calls. -/
def noCallSt : SupervisorState :=
  { supervisor_messages :=
      [{ role := Role.tool, content := "note0", name := "AnalyzeRepository",
         tool_call_id := "c0" },
       { role := Role.ai, content := "done" }],
    analysis_iterations := 2,
    repo_url := "https://github.com/o/r",
    design_brief := "brief" }

/-- Model stub for the spec's Final Synthesis scenario: context-limit errors
on attempts 1 to 3, success on attempt 4. -/
def claim3Oracle : Nat → ModelOutcome :=
  fun n => if n < 3 then ModelOutcome.tokenLimit "ctx" else ModelOutcome.success "FINAL DOC"

/-- Model stub raising a classified context-limit error on every attempt. -/
def alwaysTokenLimit : Nat → ModelOutcome :=
  fun _ => ModelOutcome.tokenLimit "prompt is too long"

/-- Compression-model stub: a non-context-limit failure on attempt 1, then
success. -/
def claim4Oracle : Nat → ModelOutcome :=
  fun n => if n = 0 then ModelOutcome.otherError "boom" else ModelOutcome.success "ok"

/-- Compression-model stub: a context-limit failure on attempt 1, then
success. -/
def claim7Oracle : Nat → ModelOutcome :=
  fun n => if n = 0 then ModelOutcome.tokenLimit "ctx" else ModelOutcome.success "ok"

/-- An analyzer history as produced by one Think/Act round: seed system and
human entries, an assistant turn, one tool result. -/
def oneRoundMsgs : List Msg :=
  [{ role := Role.system, content := "repository_analysis_system_prompt" },
   { role := Role.human, content := "topic" },
   { role := Role.ai, content := "x",
     tool_calls := [{ name := "read_file_with_context", args := "README.md", id := "t1" }] },
   { role := Role.tool, content := "obs", name := "read_file_with_context",
     tool_call_id := "t1" }]

/-- An analyzer state whose most recent Think output requested two calls,
one of which will raise. -/
def twoCallAnalyzerSt : AnalyzerState :=
  { analyzer_messages :=
      [{ role := Role.system, content := "repository_analysis_system_prompt" },
       { role := Role.human, content := "topic" },
       { role := Role.ai, content := "",
         tool_calls :=
           [{ name := "read_file_with_context", args := "README.md", id := "t1" },
            { name := "search_code_patterns", args := "class User", id := "t2" }] }],
    tool_call_iterations := 1 }

/-- A capability stub that raises on the second call and answers the
first. -/
def raisingRunTool : ToolCall → Except String String :=
  fun tc => if tc.id = "t2" then Except.error "rate limited" else Except.ok "file contents"

/-! ## Helper lemmas -/

theorem get_all_tools_cons (gh : GithubConfig) :
    get_all_tools gh = "AnalysisComplete" :: get_github_tools gh := rfl

theorem zipWith_self_eq_map (f : α → α → β) (l : List α) :
    List.zipWith f l l = l.map (fun a => f a a) := by
  induction l with
  | nil => rfl
  | cons a t ih => simp [ih]

theorem any_isErr_false (runUnit : ToolCall → Except String AnalyzerOutput)
    (l : List ToolCall) (h : ∀ tc ∈ l, isErr (runUnit tc) = false) :
    (l.map runUnit).any isErr = false := by
  induction l with
  | nil => rfl
  | cons a t ih =>
    simp only [List.map_cons, List.any_cons, Bool.or_eq_false_iff]
    exact ⟨h a (by simp), ih (fun tc htc => h tc (by simp [htc]))⟩

theorem filterMap_toOption_of_ok (runUnit : ToolCall → Except String AnalyzerOutput)
    (res : ToolCall → AnalyzerOutput) (l : List ToolCall)
    (h : ∀ tc ∈ l, runUnit tc = Except.ok (res tc)) :
    (l.map runUnit).filterMap Except.toOption = l.map res := by
  induction l with
  | nil => rfl
  | cons a t ih =>
    have ha := h a (by simp)
    simp only [List.map_cons, List.filterMap_cons, ha, Except.toOption]
    exact congrArg _ (ih (fun tc htc => h tc (by simp [htc])))

theorem remove_up_to_last_ai_message_eq_take (messages : List Msg) :
    ∃ k, remove_up_to_last_ai_message messages = messages.take k := by
  unfold remove_up_to_last_ai_message
  cases h : lastAiIdx messages with
  | none => exact ⟨messages.length, (List.take_length messages).symm⟩
  | some i => exact ⟨i, rfl⟩

theorem compressLoop_calls_le (oracle : Nat → ModelOutcome) (messages : List Msg)
    (a : Nat) : a ≤ 3 → (compressLoop oracle messages a).2 ≤ 3 := by
  induction messages, a using compressLoop.induct oracle with
  | case1 msgs a ha c hc =>
    intro _
    rw [compressLoop]
    simp only [ha, if_true, hc]
    omega
  | case2 msgs a ha m hm ih =>
    intro _
    rw [compressLoop]
    simp only [ha, if_true, hm]
    exact ih (by omega)
  | case3 msgs a ha m hm ih =>
    intro _
    rw [compressLoop]
    simp only [ha, if_true, hm]
    exact ih (by omega)
  | case4 msgs a ha =>
    intro h3
    rw [compressLoop]
    simp only [ha, if_false]
    omega

theorem compressLoop_all_fail (oracle : Nat → ModelOutcome)
    (hfail : ∀ k, k < 3 → ∀ s, oracle k ≠ ModelOutcome.success s)
    (messages : List Msg) (a : Nat) :
    a ≤ 3 →
      (compressLoop oracle messages a).1.compressed_analysis
          = "Error synthesizing analysis report: Maximum retries exceeded"
        ∧ (compressLoop oracle messages a).2 = 3 := by
  induction messages, a using compressLoop.induct oracle with
  | case1 msgs a ha c hc => exact absurd hc (hfail a ha c)
  | case2 msgs a ha m hm ih =>
    intro _
    rw [compressLoop]
    simp only [ha, if_true, hm]
    exact ih (by omega)
  | case3 msgs a ha m hm ih =>
    intro _
    rw [compressLoop]
    simp only [ha, if_true, hm]
    exact ih (by omega)
  | case4 msgs a ha =>
    intro h3
    rw [compressLoop]
    simp only [ha, if_false]
    exact ⟨by trivial, by omega⟩

theorem compressLoop_raw_take (oracle : Nat → ModelOutcome) (messages : List Msg)
    (a : Nat) :
    ∃ k, (compressLoop oracle messages a).1.raw_analysis
      = [compress_raw (messages.take k)] := by
  induction messages, a using compressLoop.induct oracle with
  | case1 msgs a ha c hc =>
    refine ⟨msgs.length, ?_⟩
    rw [compressLoop]
    simp [ha, hc, List.take_length]
  | case2 msgs a ha m hm ih =>
    obtain ⟨k, hk⟩ := ih
    obtain ⟨j, hj⟩ := remove_up_to_last_ai_message_eq_take msgs
    refine ⟨min k j, ?_⟩
    rw [compressLoop]
    simp only [ha, if_true, hm]
    rw [hk, hj, List.take_take]
  | case3 msgs a ha m hm ih =>
    obtain ⟨k, hk⟩ := ih
    refine ⟨k, ?_⟩
    rw [compressLoop]
    simp only [ha, if_true, hm]
    exact hk
  | case4 msgs a ha =>
    refine ⟨msgs.length, ?_⟩
    rw [compressLoop]
    simp [ha, List.take_length]

theorem finalLoop_trace_head (oracle : Nat → ModelOutcome) (lim : Option Nat)
    (f : List Char) (b r : Nat) (hr : r ≤ 3) :
    ((finalLoop oracle lim f b r).2)[0]? = some f.length := by
  rw [finalLoop]
  simp only [hr, if_true]
  cases ho : oracle r with
  | success c => simp [ho]
  | tokenLimit m =>
    by_cases h0 : r = 0
    · subst h0
      cases lim with
      | none => simp [ho]
      | some l => simp [ho]
    · simp [ho, h0]
  | otherError m => simp [ho]

theorem finalLoop_ret_writes (oracle : Nat → ModelOutcome) (lim : Option Nat)
    (f : List Char) (b r : Nat) :
    ∀ u, (finalLoop oracle lim f b r).1 = FinalResult.ret u →
      FieldWrite.analysis_notes_override [] ∈ u
      ∧ ∀ w ∈ u, (∃ s, w = FieldWrite.final_design_doc s)
          ∨ (∃ l, w = FieldWrite.messages l)
          ∨ w = FieldWrite.analysis_notes_override [] := by
  induction f, b, r using finalLoop.induct oracle lim with
  | case1 f ftl r hr c hc =>
    intro u hu
    rw [finalLoop] at hu
    simp only [hr, if_true, hc, FinalResult.ret.injEq] at hu
    subst hu
    refine ⟨by simp [cleared_state], ?_⟩
    intro w hw
    simp only [cleared_state, List.cons_append, List.nil_append, List.mem_cons,
      List.not_mem_nil, or_false] at hw
    rcases hw with h | h | h <;> simp [h]
  | case2 f ftl r hr m hm =>
    intro u hu
    rw [finalLoop] at hu
    simp only [hr, if_true, hm, FinalResult.ret.injEq] at hu
    subst hu
    refine ⟨by simp [cleared_state], ?_⟩
    intro w hw
    simp only [cleared_state, List.cons_append, List.nil_append, List.mem_cons,
      List.not_mem_nil, or_false] at hw
    rcases hw with h | h <;> simp [h]
  | case3 f ftl m hlim hr hm =>
    intro u hu
    rw [finalLoop] at hu
    simp only [hlim, hr, if_true, hm, if_pos rfl, FinalResult.ret.injEq] at hu
    subst hu
    refine ⟨by simp [cleared_state], ?_⟩
    intro w hw
    simp only [cleared_state, List.cons_append, List.nil_append, List.mem_cons,
      List.not_mem_nil, or_false] at hw
    rcases hw with h | h <;> simp [h]
  | case4 f ftl m lim2 hlim bb hr hm ih =>
    intro u hu
    rw [finalLoop] at hu
    simp only [hlim, hr, if_true, hm, if_pos rfl] at hu
    rw [hlim] at ih
    exact ih u hu
  | case5 f ftl r hr m hm hr0 bb ih =>
    intro u hu
    rw [finalLoop] at hu
    simp only [hr, if_true, hm, hr0, if_false] at hu
    exact ih u hu
  | case6 f ftl r hr =>
    intro u hu
    rw [finalLoop] at hu
    simp only [hr, if_false] at hu
    exact absurd hu (by simp)

theorem supervisor_should_end_false (cfg : Configuration) (st : SupervisorState)
    (hit : st.analysis_iterations < cfg.max_analyzer_iterations)
    (hne : (most_recent_message st.supervisor_messages).tool_calls ≠ [])
    (hnc : analysis_complete_requested (most_recent_message st.supervisor_messages)
      = false) :
    supervisor_should_end cfg st = false := by
  simp only [supervisor_should_end, Bool.or_eq_false_iff, decide_eq_false_iff_not,
    Nat.not_le, List.isEmpty_eq_false]
  exact ⟨⟨hit, hne⟩, hnc⟩

/-- The Dispatch branch of `supervisor_tools` when no exit criterion holds
and every admitted Analyzer Unit run returns: the first
`max_concurrent_analysis_units` requests are really dispatched and the rest
get the synthetic rejection, results in request order. -/
theorem supervisor_tools_dispatch (cfg : Configuration)
    (runUnit : ToolCall → Except String AnalyzerOutput)
    (res : ToolCall → AnalyzerOutput) (order : List Nat) (st : SupervisorState)
    (hend : supervisor_should_end cfg st = false)
    (hok : ∀ tc ∈ (analyze_repository_calls_of
        (most_recent_message st.supervisor_messages)).take
        cfg.max_concurrent_analysis_units, runUnit tc = Except.ok (res tc))
    (hperm : order.Perm (List.range ((analyze_repository_calls_of
        (most_recent_message st.supervisor_messages)).take
        cfg.max_concurrent_analysis_units).length)) :
    supervisor_tools cfg runUnit order st =
      SupTransition.toSupervisor
        (((analyze_repository_calls_of
            (most_recent_message st.supervisor_messages)).take
            cfg.max_concurrent_analysis_units).map
              (fun tc => supervisor_tool_message (res tc) tc)
          ++ ((analyze_repository_calls_of
              (most_recent_message st.supervisor_messages)).drop
              cfg.max_concurrent_analysis_units).map (overflow_tool_message cfg))
        [String.intercalate "\n"
          (((analyze_repository_calls_of
              (most_recent_message st.supervisor_messages)).take
              cfg.max_concurrent_analysis_units).map
                (fun tc => String.intercalate "\n" (res tc).raw_analysis))] := by
  have hok2 : ∀ tc ∈ (analyze_repository_calls_of
      (most_recent_message st.supervisor_messages)).take
      cfg.max_concurrent_analysis_units, isErr (runUnit tc) = false := by
    intro tc htc
    rw [hok tc htc]
    rfl
  have hany := any_isErr_false runUnit _ hok2
  have hfm := filterMap_toOption_of_ok runUnit res _ hok
  have hgather : asyncGather
      (((analyze_repository_calls_of
        (most_recent_message st.supervisor_messages)).take
        cfg.max_concurrent_analysis_units).map res) order
      = ((analyze_repository_calls_of
        (most_recent_message st.supervisor_messages)).take
        cfg.max_concurrent_analysis_units).map res := by
    apply asyncGather_perm
    rw [List.length_map]
    exact hperm
  simp only [supervisor_tools, hend, Bool.false_eq_true, if_false, hany, hfm,
    hgather, List.zipWith_map_left, zipWith_self_eq_map, List.map_map]
  rfl

/-! ## Claim theorems -/

/-- Claim C1: when the most recent Plan output requests `k` `AnalyzeRepository`
actions with `k > max_concurrent_units` (and no exit criterion holds and
every admitted unit completes, in any completion order), exactly the first
`max_concurrent_units` actions — the fixed prefix slice — are dispatched to
Analyzer Units, each of the remaining `k - max_concurrent_units` actions
receives the synthetic rejection, the result entries are index-aligned to
the original `k` requests (prefix of real results, then the rejections, `k`
entries in all), and the number of real dispatches never exceeds
`max_concurrent_units`. -/
theorem claim1_dispatch_caps_concurrency (cfg : Configuration)
    (runUnit : ToolCall → Except String AnalyzerOutput)
    (res : ToolCall → AnalyzerOutput) (order : List Nat) (st : SupervisorState)
    (k : Nat)
    (hk : (analyze_repository_calls_of
      (most_recent_message st.supervisor_messages)).length = k)
    (hmax : cfg.max_concurrent_analysis_units < k)
    (hit : st.analysis_iterations < cfg.max_analyzer_iterations)
    (hnc : analysis_complete_requested
      (most_recent_message st.supervisor_messages) = false)
    (hok : ∀ tc ∈ (analyze_repository_calls_of
        (most_recent_message st.supervisor_messages)).take
        cfg.max_concurrent_analysis_units, runUnit tc = Except.ok (res tc))
    (hperm : order.Perm (List.range cfg.max_concurrent_analysis_units)) :
    supervisor_tools cfg runUnit order st =
      SupTransition.toSupervisor
        (((analyze_repository_calls_of
            (most_recent_message st.supervisor_messages)).take
            cfg.max_concurrent_analysis_units).map
              (fun tc => supervisor_tool_message (res tc) tc)
          ++ ((analyze_repository_calls_of
              (most_recent_message st.supervisor_messages)).drop
              cfg.max_concurrent_analysis_units).map (overflow_tool_message cfg))
        [String.intercalate "\n"
          (((analyze_repository_calls_of
              (most_recent_message st.supervisor_messages)).take
              cfg.max_concurrent_analysis_units).map
                (fun tc => String.intercalate "\n" (res tc).raw_analysis))]
    ∧ ((analyze_repository_calls_of
        (most_recent_message st.supervisor_messages)).take
        cfg.max_concurrent_analysis_units).length
        = cfg.max_concurrent_analysis_units
    ∧ ((analyze_repository_calls_of
        (most_recent_message st.supervisor_messages)).drop
        cfg.max_concurrent_analysis_units).length
        = k - cfg.max_concurrent_analysis_units
    ∧ (((analyze_repository_calls_of
          (most_recent_message st.supervisor_messages)).take
          cfg.max_concurrent_analysis_units).map
            (fun tc => supervisor_tool_message (res tc) tc)
        ++ ((analyze_repository_calls_of
            (most_recent_message st.supervisor_messages)).drop
            cfg.max_concurrent_analysis_units).map
              (overflow_tool_message cfg)).length = k
    ∧ (∀ m : Msg, ((analyze_repository_calls_of m).take
        cfg.max_concurrent_analysis_units).length
        ≤ cfg.max_concurrent_analysis_units) := by
  have hne : (most_recent_message st.supervisor_messages).tool_calls ≠ [] := by
    intro h
    have hnil : analyze_repository_calls_of
        (most_recent_message st.supervisor_messages) = [] := by
      unfold analyze_repository_calls_of
      rw [h]
      rfl
    rw [hnil] at hk
    simp only [List.length_nil] at hk
    omega
  have hend := supervisor_should_end_false cfg st hit hne hnc
  have hlen_take : ((analyze_repository_calls_of
      (most_recent_message st.supervisor_messages)).take
      cfg.max_concurrent_analysis_units).length
      = cfg.max_concurrent_analysis_units := by
    rw [List.length_take, hk]
    omega
  have hmain := supervisor_tools_dispatch cfg runUnit res order st hend hok
    (by rw [hlen_take]; exact hperm)
  refine ⟨hmain, hlen_take, ?_, ?_, ?_⟩
  · rw [List.length_drop, hk]
  · rw [List.length_append, List.length_map, List.length_map, hlen_take,
      List.length_drop, hk]
    omega
  · intro m
    rw [List.length_take]
    exact min_le_left _ _

theorem claim1_witness :
    ((analyze_repository_calls_of
        (most_recent_message tenCallSt.supervisor_messages)).take
        threeUnitCfg.max_concurrent_analysis_units).length = 3
    ∧ ((analyze_repository_calls_of
        (most_recent_message tenCallSt.supervisor_messages)).drop
        threeUnitCfg.max_concurrent_analysis_units).length = 7 := by
  have h := claim1_dispatch_caps_concurrency threeUnitCfg stubRunUnit stubRes
    (List.range 3) tenCallSt 10 (by decide) (by decide) (by decide) (by decide)
    (fun tc _ => rfl) (by decide)
  exact ⟨h.2.1, h.2.2.1⟩

/-- Claim C2: the Plan step increments the iteration counter by exactly 1; the
Dispatch step (when the admitted fan-out does not raise) goes to the
terminal state exactly when the counter has reached
`max_supervisor_iterations`, or no actions were requested, or an
`AnalysisComplete` action is present — in particular iteration exhaustion
alone terminates the loop; and on the terminal transition the collected
notes are all tool-result entries of the supervisor history. -/
theorem claim2_plan_increment_and_termination (cfg : Configuration)
    (runUnit : ToolCall → Except String AnalyzerOutput) (order : List Nat)
    (st : SupervisorState) (response : Msg)
    (hok : ∀ tc ∈ (analyze_repository_calls_of
        (most_recent_message st.supervisor_messages)).take
        cfg.max_concurrent_analysis_units, isErr (runUnit tc) = false) :
    (supervisor st response).analysis_iterations = st.analysis_iterations + 1
    ∧ ((supervisor_tools cfg runUnit order st).isEnd = true ↔
        (cfg.max_analyzer_iterations ≤ st.analysis_iterations
          ∨ (most_recent_message st.supervisor_messages).tool_calls = []
          ∨ analysis_complete_requested
              (most_recent_message st.supervisor_messages) = true))
    ∧ (∀ notes ru db,
        supervisor_tools cfg runUnit order st = SupTransition.toEnd notes ru db →
        notes = get_notes_from_tool_calls st.supervisor_messages) := by
  refine ⟨rfl, ?_, ?_⟩
  · by_cases hend : supervisor_should_end cfg st = true
    · have hlhs : (supervisor_tools cfg runUnit order st).isEnd = true := by
        simp only [supervisor_tools, hend, if_true]
        rfl
      rw [hlhs]
      simp only [supervisor_should_end, Bool.or_eq_true, decide_eq_true_eq,
        List.isEmpty_iff] at hend
      constructor
      · intro _
        rcases hend with (h | h) | h
        · exact Or.inl h
        · exact Or.inr (Or.inl h)
        · exact Or.inr (Or.inr h)
      · intro _
        rfl
    · have hendF : supervisor_should_end cfg st = false := by
        revert hend
        cases supervisor_should_end cfg st <;> simp
      have hany := any_isErr_false runUnit _ hok
      have hlhs : (supervisor_tools cfg runUnit order st).isEnd = false := by
        simp only [supervisor_tools, hendF, Bool.false_eq_true, if_false, hany]
        rfl
      rw [hlhs]
      simp only [supervisor_should_end, Bool.or_eq_false_iff,
        decide_eq_false_iff_not, Nat.not_le, List.isEmpty_eq_false] at hendF
      obtain ⟨⟨h1, h2⟩, h3⟩ := hendF
      constructor
      · intro h
        exact absurd h (by simp)
      · intro h
        rcases h with h | h | h
        · omega
        · exact absurd h h2
        · rw [h3] at h
          exact absurd h (by simp)
  · intro notes ru db h
    simp only [supervisor_tools] at h
    split at h
    · simp only [SupTransition.toEnd.injEq] at h
      exact h.1.symm
    · split at h
      · simp only [SupTransition.toEnd.injEq] at h
        exact h.1.symm
      · exact absurd h (by simp)

theorem claim2_witness :
    (supervisor noCallSt defaultMsg).analysis_iterations = 3
    ∧ (supervisor_tools {} stubRunUnit [] noCallSt).isEnd = true := by
  have h := claim2_plan_increment_and_termination {} stubRunUnit [] noCallSt
    defaultMsg (by decide)
  exact ⟨h.1, h.2.1.mpr (Or.inr (Or.inl (by decide)))⟩

/-- Claim C6: in the Act step, capability exceptions never propagate — each raised
error becomes the textual observation `"Error executing tool: <message>"` —
and exactly one result entry per requested call is appended, index-aligned
(so matched to its call identifier), for every completion order of the
concurrent fan-out. -/
theorem claim6_capability_errors_contained (cfg : Configuration)
    (runTool : ToolCall → Except String String) (order : List Nat)
    (st : AnalyzerState)
    (hperm : order.Perm (List.range
      (most_recent_message st.analyzer_messages).tool_calls.length)) :
    (analyzer_tools cfg runTool order st).outputs
      = (most_recent_message st.analyzer_messages).tool_calls.map
          (fun tc => tool_output_message (execute_tool_safely runTool tc) tc)
    ∧ (analyzer_tools cfg runTool order st).outputs.length
      = (most_recent_message st.analyzer_messages).tool_calls.length
    ∧ (∀ i : Nat, ((analyzer_tools cfg runTool order st).outputs.map
          (fun m => m.tool_call_id))[i]?
        = ((most_recent_message st.analyzer_messages).tool_calls.map
          (fun tc => tc.id))[i]?)
    ∧ (∀ tc msg, runTool tc = Except.error msg →
        execute_tool_safely runTool tc = "Error executing tool: " ++ msg) := by
  have hout : (analyzer_tools cfg runTool order st).outputs
      = (most_recent_message st.analyzer_messages).tool_calls.map
          (fun tc => tool_output_message (execute_tool_safely runTool tc) tc) := by
    by_cases hemp : (most_recent_message st.analyzer_messages).tool_calls.isEmpty
      = true
    · have he : (most_recent_message st.analyzer_messages).tool_calls = [] := by
        simpa [List.isEmpty_iff] using hemp
      simp only [analyzer_tools, hemp, if_true, he, List.map_nil]
      rfl
    · have hempF : (most_recent_message st.analyzer_messages).tool_calls.isEmpty
        = false := by
        revert hemp
        cases (most_recent_message st.analyzer_messages).tool_calls.isEmpty <;> simp
      have hgather : asyncGather
          ((most_recent_message st.analyzer_messages).tool_calls.map
            (execute_tool_safely runTool)) order
          = (most_recent_message st.analyzer_messages).tool_calls.map
            (execute_tool_safely runTool) := by
        apply asyncGather_perm
        rw [List.length_map]
        exact hperm
      simp only [analyzer_tools, hempF, Bool.false_eq_true, if_false, hgather,
        List.zipWith_map_left, zipWith_self_eq_map]
      split
      · rfl
      · rfl
  refine ⟨hout, ?_, ?_, ?_⟩
  · rw [hout, List.length_map]
  · intro i
    rw [hout, List.map_map]
    rfl
  · intro tc msg h
    simp [execute_tool_safely, h]

theorem claim6_witness :
    (analyzer_tools threeUnitCfg raisingRunTool [1, 0] twoCallAnalyzerSt).outputs
      = [{ role := Role.tool, content := "file contents",
           name := "read_file_with_context", tool_call_id := "t1" },
         { role := Role.tool, content := "Error executing tool: rate limited",
           name := "search_code_patterns", tool_call_id := "t2" }]
    ∧ execute_tool_safely raisingRunTool
        { name := "search_code_patterns", args := "class User", id := "t2" }
      = "Error executing tool: rate limited" := by
  have h := claim6_capability_errors_contained threeUnitCfg raisingRunTool
    [1, 0] twoCallAnalyzerSt (by decide)
  refine ⟨?_, ?_⟩
  · rw [h.1]
    rfl
  · exact h.2.2.2 _ "rate limited" rfl

/-- Claim C9: for every concurrent fan-out, the ordering of appended result
entries equals the input-request ordering, whatever the completion order:
`asyncio.gather` returns input-ordered results for every completion
permutation, and both the Act step and the Dispatch step are insensitive to
the completion order of their branches. -/
theorem claim9_fanout_order_alignment (tasks : List AnalyzerOutput)
    (order orderA orderB orderC orderD : List Nat) (cfg : Configuration)
    (runTool : ToolCall → Except String String)
    (runUnit : ToolCall → Except String AnalyzerOutput)
    (ast : AnalyzerState) (sst : SupervisorState)
    (h : order.Perm (List.range tasks.length))
    (hA : orderA.Perm (List.range
      (most_recent_message ast.analyzer_messages).tool_calls.length))
    (hB : orderB.Perm (List.range
      (most_recent_message ast.analyzer_messages).tool_calls.length))
    (hC : orderC.Perm (List.range ((((analyze_repository_calls_of
      (most_recent_message sst.supervisor_messages)).take
      cfg.max_concurrent_analysis_units).map runUnit).filterMap
      Except.toOption).length))
    (hD : orderD.Perm (List.range ((((analyze_repository_calls_of
      (most_recent_message sst.supervisor_messages)).take
      cfg.max_concurrent_analysis_units).map runUnit).filterMap
      Except.toOption).length)) :
    asyncGather tasks order = tasks
    ∧ analyzer_tools cfg runTool orderA ast = analyzer_tools cfg runTool orderB ast
    ∧ supervisor_tools cfg runUnit orderC sst
      = supervisor_tools cfg runUnit orderD sst := by
  refine ⟨asyncGather_perm tasks order h, ?_, ?_⟩
  · by_cases hemp : (most_recent_message ast.analyzer_messages).tool_calls.isEmpty
      = true
    · simp only [analyzer_tools, hemp, if_true]
    · have hempF : (most_recent_message ast.analyzer_messages).tool_calls.isEmpty
        = false := by
        revert hemp
        cases (most_recent_message ast.analyzer_messages).tool_calls.isEmpty <;> simp
      have hgA : asyncGather
          ((most_recent_message ast.analyzer_messages).tool_calls.map
            (execute_tool_safely runTool)) orderA
          = (most_recent_message ast.analyzer_messages).tool_calls.map
            (execute_tool_safely runTool) := by
        apply asyncGather_perm
        rw [List.length_map]
        exact hA
      have hgB : asyncGather
          ((most_recent_message ast.analyzer_messages).tool_calls.map
            (execute_tool_safely runTool)) orderB
          = (most_recent_message ast.analyzer_messages).tool_calls.map
            (execute_tool_safely runTool) := by
        apply asyncGather_perm
        rw [List.length_map]
        exact hB
      simp only [analyzer_tools, hempF, Bool.false_eq_true, if_false, hgA, hgB]
  · by_cases hend : supervisor_should_end cfg sst = true
    · simp only [supervisor_tools, hend, if_true]
    · have hendF : supervisor_should_end cfg sst = false := by
        revert hend
        cases supervisor_should_end cfg sst <;> simp
      by_cases hany : ((((analyze_repository_calls_of
          (most_recent_message sst.supervisor_messages)).take
          cfg.max_concurrent_analysis_units).map runUnit).any isErr) = true
      · simp only [supervisor_tools, hendF, Bool.false_eq_true, if_false, hany,
          if_true]
      · have hanyF : ((((analyze_repository_calls_of
            (most_recent_message sst.supervisor_messages)).take
            cfg.max_concurrent_analysis_units).map runUnit).any isErr) = false := by
          revert hany
          cases (((analyze_repository_calls_of
            (most_recent_message sst.supervisor_messages)).take
            cfg.max_concurrent_analysis_units).map runUnit).any isErr <;> simp
        have hgC := asyncGather_perm _ orderC hC
        have hgD := asyncGather_perm _ orderD hD
        simp only [supervisor_tools, hendF, Bool.false_eq_true, if_false, hanyF,
          hgC, hgD]

theorem claim9_witness :
    asyncGather [stubRes { name := "AnalyzeRepository", args := "t0", id := "c0" },
                 stubRes { name := "AnalyzeRepository", args := "t1", id := "c1" }]
        [1, 0]
      = [stubRes { name := "AnalyzeRepository", args := "t0", id := "c0" },
         stubRes { name := "AnalyzeRepository", args := "t1", id := "c1" }]
    ∧ analyzer_tools threeUnitCfg raisingRunTool [1, 0] twoCallAnalyzerSt
      = analyzer_tools threeUnitCfg raisingRunTool [0, 1] twoCallAnalyzerSt
    ∧ supervisor_tools threeUnitCfg stubRunUnit [2, 0, 1] tenCallSt
      = supervisor_tools threeUnitCfg stubRunUnit [0, 1, 2] tenCallSt := by
  exact claim9_fanout_order_alignment _ [1, 0] [1, 0] [0, 1] [2, 0, 1] [0, 1, 2]
    threeUnitCfg raisingRunTool stubRunUnit twoCallAnalyzerSt tenCallSt
    (by decide) (by decide) (by decide) (by decide) (by decide)

/-- Claim C8 (code-bug evidence): with no repository reference and no credential
the GitHub tool set is empty, but `get_all_tools` still returns the
synthetic `AnalysisComplete` tool, so the tool list is never empty, the
Think step's `len(tools) == 0` guard — whose own error message says it
should fire exactly in this misconfiguration — is dead code, and `analyzer`
proceeds instead of raising. -/
theorem claim8_empty_capability_guard_never_fires :
    get_github_tools { github_repo_url := "", github_access_token := "" } = []
    ∧ get_all_tools { github_repo_url := "", github_access_token := "" }
      = ["AnalysisComplete"]
    ∧ (∀ gh response st, analyzer gh response st
        = AnalyzerThinkResult.toAnalyzerTools response
            (st.tool_call_iterations + 1)) := by
  refine ⟨rfl, rfl, ?_⟩
  intro gh response st
  have hne : (get_all_tools gh).length ≠ 0 := by
    rw [get_all_tools_cons]
    simp
  simp [analyzer, hne]

/-- Claim C5 (code-bug evidence): when every attempt raises a classified
context/token-limit error (here four attempts with a known token limit),
the retries-exhausted return literal reads the never-assigned local
`final_design_doc`, so the function raises `UnboundLocalError` instead of
returning the synthetic "maximum retries exceeded" document; the trace
confirms all four model calls were made. -/
theorem claim5_retries_exhausted_raises :
    (finalLoop alwaysTokenLimit (some 128000) [] 0 0).1
      = FinalResult.raised "UnboundLocalError"
    ∧ (finalLoop alwaysTokenLimit (some 128000) [] 0 0).2.length = 4 := by
  constructor <;> simp [finalLoop, alwaysTokenLimit]

/-- Claim C10: every path of Final Synthesis that actually returns writes the
override of `analysis_notes` to the empty list and writes only the
`final_design_doc`, `messages` and notes-override fields; but the
retries-exhausted path never returns — it raises `UnboundLocalError` — so
on that path the notes are not cleared (code bug). -/
theorem claim10_frame_effects (oracle : Nat → ModelOutcome) (lim : Option Nat)
    (findings : List Char) (b r : Nat) (u : List FieldWrite)
    (hret : (finalLoop oracle lim findings b r).1 = FinalResult.ret u) :
    (FieldWrite.analysis_notes_override [] ∈ u
      ∧ ∀ w ∈ u, (∃ s, w = FieldWrite.final_design_doc s)
          ∨ (∃ l, w = FieldWrite.messages l)
          ∨ w = FieldWrite.analysis_notes_override [])
    ∧ (finalLoop alwaysTokenLimit (some 1000) ['n', 'o', 't', 'e'] 0 0).1
      = FinalResult.raised "UnboundLocalError" := by
  refine ⟨finalLoop_ret_writes oracle lim findings b r u hret, ?_⟩
  simp [finalLoop, alwaysTokenLimit]

theorem claim10_witness :
    FieldWrite.analysis_notes_override []
      ∈ [FieldWrite.final_design_doc "doc", FieldWrite.messages ["doc"],
         FieldWrite.analysis_notes_override []] := by
  have h := claim10_frame_effects (fun _ => ModelOutcome.success "doc") none [] 0 0
    ([FieldWrite.final_design_doc "doc", FieldWrite.messages ["doc"]]
      ++ cleared_state) (by simp [finalLoop])
  exact h.1.1

/-- Claim C3: in Final Synthesis, a classified context-limit failure on the first
attempt aborts with the explanatory document when the model's maximum
context size is unknown (one call, no retry); when known, the second
attempt runs on `findings` truncated to a character budget of exactly
`4 * token_limit`; each subsequent context-limit failure shrinks the budget
to `int(budget * 0.9)` and retruncates; and in the spec's scenario
(10000-character findings, token-limit lookup 1000, failures on attempts
1-3, success on attempt 4) the attempts use 10000, 4000, 3600 and 3240
characters and the attempt-4 success is returned as the document. -/
theorem claim3_final_synthesis_shrink_ladder (oracle : Nat → ModelOutcome)
    (findings : List Char) (lim : Nat) (msg : String)
    (h0 : oracle 0 = ModelOutcome.tokenLimit msg) :
    finalLoop oracle none findings 0 0
      = (FinalResult.ret ([FieldWrite.final_design_doc (tokenLimitUnknownText msg)]
          ++ cleared_state), [findings.length])
    ∧ ((finalLoop oracle (some lim) findings 0 0).2)[1]?
      = some (min (lim * 4) findings.length)
    ∧ (∀ (lim2 : Option Nat) (b r : Nat) (msg2 : String), 1 ≤ r → r < 3 →
        oracle r = ModelOutcome.tokenLimit msg2 →
        ((finalLoop oracle lim2 findings b r).2)[1]?
          = some (min (b * 9 / 10) findings.length))
    ∧ finalLoop claim3Oracle (some 1000) (List.replicate 10000 'a') 0 0
      = (FinalResult.ret ([FieldWrite.final_design_doc "FINAL DOC",
            FieldWrite.messages ["FINAL DOC"]] ++ cleared_state),
         [10000, 4000, 3600, 3240]) := by
  refine ⟨?_, ?_, ?_, ?_⟩
  · rw [finalLoop]
    simp [h0]
  · have hhead := finalLoop_trace_head oracle (some lim) (findings.take (lim * 4))
      (lim * 4) 1 (by omega)
    rw [List.length_take] at hhead
    rw [finalLoop]
    norm_num [h0]
    simpa using hhead
  · intro lim2 b r msg2 hr1 hr3 hm
    have hhead := finalLoop_trace_head oracle lim2 (findings.take (b * 9 / 10))
      (b * 9 / 10) (r + 1) (by omega)
    rw [List.length_take] at hhead
    rw [finalLoop, if_pos (by omega : r ≤ 3)]
    simp only [hm, if_neg (by omega : ¬ r = 0)]
    simpa using hhead
  · norm_num [finalLoop, claim3Oracle, List.take_replicate, List.length_replicate,
      cleared_state]

theorem claim3_witness :
    ((finalLoop claim3Oracle (some 1000) (List.replicate 10000 'a') 0 0).2)[1]?
      = some 4000
    ∧ finalLoop claim3Oracle (some 1000) (List.replicate 10000 'a') 0 0
      = (FinalResult.ret ([FieldWrite.final_design_doc "FINAL DOC",
            FieldWrite.messages ["FINAL DOC"]] ++ cleared_state),
         [10000, 4000, 3600, 3240]) := by
  have h := claim3_final_synthesis_shrink_ladder claim3Oracle
    (List.replicate 10000 'a') 1000 "ctx" (by decide)
  refine ⟨?_, h.2.2.2⟩
  have h2 := h.2.1
  norm_num [List.length_replicate] at h2
  exact h2

/-- Claim C4 counterexample: a non-context-limit failure on attempt 1 does NOT
abort the Compression Stage — the loop falls through and retries, so a
second model call is made and its success is returned (2 calls, no
synthetic error report), contradicting "aborts immediately ... performing
no further model-call attempts". -/
theorem claim4_counterexample :
    compress_analysis claim4Oracle oneRoundMsgs
      = ({ compressed_analysis := "ok", raw_analysis := ["x\nobs"] }, 2) := by
  simp [compress_analysis, compressLoop, claim4Oracle, compress_setup,
    oneRoundMsgs, compress_raw, filter_messages, compress_system_message,
    compress_human_message]
  rfl

/-- Claim C4 amended: the retry ladder is bounded to 3 attempts; a classified
context/token-limit failure prunes the history back through the last
assistant turn and retries; a non-context-limit failure also retries — with
the history unchanged — up to the same 3-attempt bound, and only after all
3 attempts fail is the synthetic error report returned. -/
theorem claim4_amended_retry_ladder (oracle : Nat → ModelOutcome)
    (msgs : List Msg) (m c : String) :
    (compress_analysis oracle msgs).2 ≤ 3
    ∧ ((∀ k, k < 3 → ∀ s, oracle k ≠ ModelOutcome.success s) →
        (compress_analysis oracle msgs).1.compressed_analysis
            = "Error synthesizing analysis report: Maximum retries exceeded"
          ∧ (compress_analysis oracle msgs).2 = 3)
    ∧ (oracle 0 = ModelOutcome.tokenLimit m → oracle 1 = ModelOutcome.success c →
        compress_analysis oracle msgs
          = ({ compressed_analysis := c,
               raw_analysis := [compress_raw
                 (remove_up_to_last_ai_message (compress_setup msgs))] }, 2))
    ∧ (oracle 0 = ModelOutcome.otherError m → oracle 1 = ModelOutcome.success c →
        compress_analysis oracle msgs
          = ({ compressed_analysis := c,
               raw_analysis := [compress_raw (compress_setup msgs)] }, 2)) := by
  refine ⟨compressLoop_calls_le oracle _ 0 (by omega),
    fun hf => compressLoop_all_fail oracle hf _ 0 (by omega), ?_, ?_⟩
  · intro h0 h1
    unfold compress_analysis
    rw [compressLoop, if_pos (by omega : (0:Nat) < 3)]
    simp only [h0]
    rw [compressLoop, if_pos (by omega : (0:Nat) + 1 < 3)]
    simp only [h1]
  · intro h0 h1
    unfold compress_analysis
    rw [compressLoop, if_pos (by omega : (0:Nat) < 3)]
    simp only [h0]
    rw [compressLoop, if_pos (by omega : (0:Nat) + 1 < 3)]
    simp only [h1]

theorem claim4_witness :
    compress_analysis claim7Oracle oneRoundMsgs
      = ({ compressed_analysis := "ok",
           raw_analysis := [compress_raw
             (remove_up_to_last_ai_message (compress_setup oneRoundMsgs))] }, 2)
    ∧ (compress_analysis alwaysTokenLimit oneRoundMsgs).1.compressed_analysis
      = "Error synthesizing analysis report: Maximum retries exceeded"
    ∧ (compress_analysis alwaysTokenLimit oneRoundMsgs).2 = 3 := by
  have hA := claim4_amended_retry_ladder claim7Oracle oneRoundMsgs "ctx" "ok"
  have hB := claim4_amended_retry_ladder alwaysTokenLimit oneRoundMsgs "x" "y"
  have hBfail := hB.2.1 (by intro k hk s; simp [alwaysTokenLimit])
  exact ⟨hA.2.2.1 rfl rfl, hBfail.1, hBfail.2⟩

/-- Claim C7 counterexample: a context-limit failure on attempt 1 prunes the
history back before its only assistant turn, the retry then succeeds, and
the returned report's raw trail is the empty string — `raw_analysis =
[""]` — contradicting "the returned report contains a non-empty raw_text
field ... including when the history was pruned during retries". -/
theorem claim7_counterexample :
    compress_analysis claim7Oracle oneRoundMsgs
      = ({ compressed_analysis := "ok", raw_analysis := [""] }, 2) := by
  simp [compress_analysis, compressLoop, claim7Oracle, compress_setup,
    oneRoundMsgs, compress_raw, filter_messages, compress_system_message,
    compress_human_message, remove_up_to_last_ai_message, lastAiIdx]
  rfl

/-- Claim C7 amended: every Compression Stage return — success or degraded —
carries exactly one raw-trail entry, the concatenation of the tool and
assistant turns of the history as of the final attempt, i.e. of some prefix
of the set-up history (pruning only ever drops a suffix); when pruning has
removed every assistant and tool turn this raw text can be empty. -/
theorem claim7_amended_raw_trail (oracle : Nat → ModelOutcome) (msgs : List Msg) :
    ∃ k, (compress_analysis oracle msgs).1.raw_analysis
      = [compress_raw ((compress_setup msgs).take k)] :=
  compressLoop_raw_take oracle (compress_setup msgs) 0

end OpenDeepResearch
